import Mathlib

/-!
Shallow embedding of the synthetic-telemetry core of `src/functions.py`:
`generate_baseline_timeseries`, `inject_anomaly` and `calculate_statistics`.

Modelling conventions:
* Timestamps are rationals, measured in minutes since some midnight, so that
  `datetime.timedelta(minutes := m)` subtraction becomes rational subtraction
  and `.hour` becomes `(floor (t / 60)) % 24`.
* Values are real numbers (the Python code mixes Gaussian noise, `np.sin`,
  `np.exp` and `np.sqrt`).  Python's binary floating point is modelled by
  exact real arithmetic.
* `np.random.normal(0, noise)` is modelled as `noise * g i` where `g : ℕ → ℝ`
  is an arbitrary stream of standard-normal draws supplied as a parameter
  (`normal(0, σ) = σ · normal(0, 1)`; numpy returns exactly `0.0` when the
  scale is `0`, which the model reproduces).
* Python's `int(x)` (truncation toward zero) is `pyInt`.
* Python's `round(x, 2)` is modelled as round-half-up to two decimals
  (`round2`); Python uses round-half-even on binary floats, but no quantity
  appearing in the verified properties falls on a tie, so the two agree on
  everything proved below.
* Python's negative-index wraparound (`data[i]` for `i < 0`) is not modelled:
  the `AnomalySpec` domain of the specification has `start_fraction ∈ [0, 1]`,
  so every loop index of `inject_anomaly` is nonnegative there; theorems that
  quantify over `start_percent` carry the corresponding `0 ≤ start_percent`
  hypothesis.
* `np.min`/`np.max` on an empty array raise `ValueError`; `calculate_statistics`
  therefore returns `Option Stats`, with `none` on the empty series.
  `np.mean([])` returns `NaN`, and `NaN > 0` is `False` in Python; real
  division `0 / 0 = 0` makes the guard `previous_avg > 0` false in the same
  way, so the `delta` branch is faithful.
-/

/-- One element of the Python `data` list: `{"timestamp": ..., "value": ...}`. -/
structure TimePoint where
  timestamp : ℚ
  value : ℝ

/-- Python `int(x)`: truncation toward zero. -/
def pyInt (x : ℚ) : ℤ :=
  if 0 ≤ x then ⌊x⌋ else -⌊-x⌋

noncomputable section

/-- Python `round(x, 2)` (round-half-up variant; see the header comment). -/
def round2 (x : ℝ) : ℝ :=
  (⌊x * 100 + 1 / 2⌋ : ℤ) / 100

/-- Default point used with `List.getD` in the statements below. -/
def tp0 : TimePoint := ⟨0, 0⟩

/-- `generate_baseline_timeseries` (src/functions.py lines 18-41).
`hours`, `interval_minutes`, `baseline`, `noise` are the four parameters;
`now` is `datetime.datetime.utcnow()` in minutes; `g` is the standard-normal
draw stream. -/
def generate_baseline_timeseries (hours interval_minutes baseline noise : ℚ)
    (now : ℚ) (g : ℕ → ℝ) : List TimePoint :=
  let points : ℤ := pyInt (hours * 60 / interval_minutes)
  (List.range points.toNat).map (fun i =>
    let timestamp : ℚ := now - ((points.toNat - i : ℕ) : ℚ) * interval_minutes
    let hour : ℤ := ⌊timestamp / 60⌋ % 24
    let daily_factor : ℝ := 1.0 + 0.3 * Real.sin (((hour : ℝ) - 6) * Real.pi / 12)
    let value : ℝ := max 0 ((baseline : ℝ) * daily_factor + (noise : ℝ) * g i)
    { timestamp := timestamp, value := round2 value })

/-- The multiplicative factor of the `"spike"` branch of `inject_anomaly`
at window offset `k = i - start_idx` (src/functions.py line 54). -/
def spikeFactor (magnitude : ℝ) (duration : ℤ) (k : ℤ) : ℝ :=
  magnitude * Real.exp (-(k : ℝ) / ((duration : ℝ) / 3))

/-- The multiplicative factor of the `"gradual"` branch of `inject_anomaly`
at window offset `k = i - start_idx` (src/functions.py lines 58-59). -/
def gradualFactor (magnitude : ℝ) (duration : ℤ) (k : ℤ) : ℝ :=
  1.0 + (magnitude - 1.0) * min ((k : ℝ) / (duration : ℝ) * 2) 1.0

/-- `inject_anomaly` (src/functions.py lines 43-65).  The Python loop writes
`data[i]["value"] *= factor` for `i in range(start_idx, min(start_idx +
duration, total))` and leaves every other point (and every point for an
unrecognized `anomaly_type`) untouched, which is exactly this `mapIdx`. -/
def inject_anomaly (data : List TimePoint) (anomaly_type : String)
    (start_percent duration_percent : ℚ) (magnitude : ℝ) : List TimePoint :=
  let total := data.length
  let start_idx : ℤ := pyInt ((total : ℚ) * start_percent)
  let duration : ℤ := pyInt ((total : ℚ) * duration_percent)
  data.mapIdx (fun i p =>
    if start_idx ≤ (i : ℤ) ∧ (i : ℤ) < min (start_idx + duration) (total : ℤ) then
      if anomaly_type = "spike" then
        { p with value := p.value * spikeFactor magnitude duration ((i : ℤ) - start_idx) }
      else if anomaly_type = "gradual" then
        { p with value := p.value * gradualFactor magnitude duration ((i : ℤ) - start_idx) }
      else if anomaly_type = "drop" then
        { p with value := p.value * 0.3 }
      else p
    else p)

/-- The overall multiplicative effect of one `inject_anomaly` call on the
point at index `i` of a series of length `total` (factor `1` outside the
affected range and for unrecognized anomaly kinds). -/
def pointFactor (anomaly_type : String) (start_idx duration : ℤ) (magnitude : ℝ)
    (total : ℕ) (i : ℕ) : ℝ :=
  if start_idx ≤ (i : ℤ) ∧ (i : ℤ) < min (start_idx + duration) (total : ℤ) then
    if anomaly_type = "spike" then spikeFactor magnitude duration ((i : ℤ) - start_idx)
    else if anomaly_type = "gradual" then gradualFactor magnitude duration ((i : ℤ) - start_idx)
    else if anomaly_type = "drop" then 0.3
    else 1
  else 1

/-- `np.mean` over a list (`0` on the empty list, standing in for numpy's
`NaN`; see the header comment). -/
def listMean (l : List ℝ) : ℝ := l.sum / l.length

/-- `np.min` reduction (the empty case never feeds the result: it models the
`ValueError` via the `Option` in `calculate_statistics`). -/
def listMin : List ℝ → ℝ
  | [] => 0
  | v :: vs => vs.foldl min v

/-- `np.max` reduction. -/
def listMax : List ℝ → ℝ
  | [] => 0
  | v :: vs => vs.foldl max v

/-- Ascending sort of the values, as performed inside `np.percentile` /
`np.median`. -/
def sortVals (l : List ℝ) : List ℝ :=
  l.insertionSort (· ≤ ·)

/-- `np.percentile(values, q)` with the default linear interpolation between
closest ranks: sort ascending, take the fractional rank `r = (n - 1) * q / 100`
and interpolate between the neighbouring order statistics.  `np.median` is
the `q = 50` case (for even `n` the fractional rank `(n-1)/2` has fractional
part `1/2`, which interpolates to the mean of the two middle elements). -/
def percentile (l : List ℝ) (q : ℚ) : ℝ :=
  let s := sortVals l
  let r : ℚ := ((l.length : ℚ) - 1) * q / 100
  let idx : ℕ := (⌊r⌋).toNat
  s.getD idx 0 + ((r - ⌊r⌋ : ℚ) : ℝ) * (s.getD (idx + 1) 0 - s.getD idx 0)

/-- `np.std`: population standard deviation (mean of squared deviations,
then square root). -/
def npStd (l : List ℝ) : ℝ :=
  Real.sqrt (listMean (l.map (fun x => (x - listMean l) ^ 2)))

/-- The dictionary returned by `calculate_statistics`. -/
structure Stats where
  min : ℝ
  max : ℝ
  mean : ℝ
  median : ℝ
  p95 : ℝ
  p99 : ℝ
  std_dev : ℝ
  delta_vs_previous_period : ℝ

/-- `calculate_statistics` (src/functions.py lines 181-200).  On the empty
series `np.min` raises `ValueError`, modelled as `none`. -/
def calculate_statistics (data : List TimePoint) : Option Stats :=
  let values := data.map (fun p => p.value)
  if values.isEmpty then none
  else
    let midpoint := values.length / 2
    let previous_avg := listMean (values.take midpoint)
    let current_avg := listMean (values.drop midpoint)
    let delta_percent : ℝ :=
      if previous_avg > 0 then (current_avg - previous_avg) / previous_avg * 100 else 0
    some
      { min := round2 (listMin values)
        max := round2 (listMax values)
        mean := round2 (listMean values)
        median := round2 (percentile values 50)
        p95 := round2 (percentile values 95)
        p99 := round2 (percentile values 99)
        std_dev := round2 (npStd values)
        delta_vs_previous_period := round2 delta_percent }

/-- The chronologically ordered series with values `1, 2, ..., 100` used by
the percentile round-trip property. -/
def series100 : List TimePoint :=
  (List.range 100).map (fun i : ℕ => ⟨(i : ℚ), (i : ℝ) + 1⟩)

end

theorem inject_anomaly_length (data : List TimePoint) (a : String) (sp dp : ℚ) (m : ℝ) :
    (inject_anomaly data a sp dp m).length = data.length := by
  simp [inject_anomaly]

theorem list_getElem_mapIdx {α β : Type} (l : List α) (f : ℕ → α → β) (i : ℕ)
    (h : i < l.length) (h2 : i < (l.mapIdx f).length) :
    (l.mapIdx f)[i] = f i l[i] := by
  rw [← List.get_eq_getElem (l.mapIdx f) ⟨i, h2⟩, List.get_mapIdx l f i h,
    List.get_eq_getElem]

theorem inject_anomaly_getElem (data : List TimePoint) (a : String) (sp dp : ℚ) (m : ℝ)
    (i : ℕ) (h : i < data.length)
    (h2 : i < (inject_anomaly data a sp dp m).length) :
    (inject_anomaly data a sp dp m)[i] =
      ⟨(data[i]).timestamp,
        (data[i]).value *
          pointFactor a (pyInt ((data.length : ℚ) * sp)) (pyInt ((data.length : ℚ) * dp))
            m data.length i⟩ := by
  simp only [inject_anomaly] at h2 ⊢
  rw [list_getElem_mapIdx data _ i h h2]
  simp only [pointFactor]
  split_ifs <;> simp

theorem inject_anomaly_getD (data : List TimePoint) (a : String) (sp dp : ℚ) (m : ℝ)
    (i : ℕ) (h : i < data.length) :
    (inject_anomaly data a sp dp m).getD i tp0 =
      ⟨((data.getD i tp0)).timestamp,
        ((data.getD i tp0)).value *
          pointFactor a (pyInt ((data.length : ℚ) * sp)) (pyInt ((data.length : ℚ) * dp))
            m data.length i⟩ := by
  have h2 : i < (inject_anomaly data a sp dp m).length := by
    rw [inject_anomaly_length]; exact h
  rw [List.getD_eq_getElem _ _ h2, List.getD_eq_getElem _ _ h,
    inject_anomaly_getElem data a sp dp m i h h2]

theorem pointFactor_eq_one (a : String) (start_idx duration : ℤ) (m : ℝ) (total i : ℕ)
    (h : ¬(start_idx ≤ (i : ℤ) ∧ (i : ℤ) < start_idx + duration)) :
    pointFactor a start_idx duration m total i = 1 := by
  rw [pointFactor, if_neg]
  intro ⟨h1, h2⟩
  exact h ⟨h1, h2.trans_le (min_le_left _ _)⟩

/-- C8: if the computed window length rounds to 0 points, `inject_anomaly`
returns its input series unchanged and is total (in particular the spike
branch's division never executes). -/
theorem inject_anomaly_empty_window_noop (data : List TimePoint) (a : String)
    (sp dp : ℚ) (m : ℝ) (h : pyInt ((data.length : ℚ) * dp) = 0) :
    inject_anomaly data a sp dp m = data := by
  apply List.ext_getElem (inject_anomaly_length data a sp dp m)
  intro i h1 h2
  rw [inject_anomaly_getElem data a sp dp m i h2 h1,
    pointFactor_eq_one a _ _ m data.length i (by rw [h]; omega)]
  simp

/-- Witness for C8: a 3-point series with `duration_percent = 1/10` has
`window_length = int(3 * 0.1) = 0` and injection is the identity. -/
theorem inject_anomaly_empty_window_noop_witness :
    inject_anomaly [tp0, tp0, tp0] "spike" (3/5) (1/10) 2 = [tp0, tp0, tp0] :=
  inject_anomaly_empty_window_noop [tp0, tp0, tp0] "spike" (3/5) (1/10) 2
    (by norm_num [pyInt])

/-- C10: for an `anomaly_type` other than `"spike"`, `"gradual"` and
`"drop"`, `inject_anomaly` silently returns the series unchanged. -/
theorem inject_anomaly_unknown_kind_noop (data : List TimePoint) (a : String)
    (sp dp : ℚ) (m : ℝ)
    (h1 : a ≠ "spike") (h2 : a ≠ "gradual") (h3 : a ≠ "drop") :
    inject_anomaly data a sp dp m = data := by
  apply List.ext_getElem (inject_anomaly_length data a sp dp m)
  intro i hi1 hi2
  rw [inject_anomaly_getElem data a sp dp m i hi2 hi1]
  have hf : pointFactor a (pyInt ((data.length : ℚ) * sp))
      (pyInt ((data.length : ℚ) * dp)) m data.length i = 1 := by
    simp only [pointFactor]
    split_ifs <;> simp_all
  rw [hf]
  simp

/-- Witness for C10: injecting the unrecognized kind `"noise"` leaves a
concrete one-point series unchanged. -/
theorem inject_anomaly_unknown_kind_noop_witness :
    inject_anomaly [tp0] "noise" 0 1 2 = [tp0] :=
  inject_anomaly_unknown_kind_noop [tp0] "noise" 0 1 2
    (by decide) (by decide) (by decide)

/-- C5: `inject_anomaly` preserves the length and every timestamp, leaves
every point outside `[start_index, start_index + window_length)` unchanged,
and sequential injections compose multiplicatively on the then-current
values (the value at index `i` after two injections is the original value
times both per-point factors). -/
theorem inject_anomaly_frame_and_composition (data : List TimePoint) (a : String)
    (sp dp : ℚ) (m : ℝ) (hsp : 0 ≤ sp) :
    (inject_anomaly data a sp dp m).length = data.length ∧
    (∀ i, i < data.length →
      ((inject_anomaly data a sp dp m).getD i tp0).timestamp =
        (data.getD i tp0).timestamp) ∧
    (∀ i, i < data.length →
      ¬(pyInt ((data.length : ℚ) * sp) ≤ (i : ℤ) ∧
          (i : ℤ) < pyInt ((data.length : ℚ) * sp) + pyInt ((data.length : ℚ) * dp)) →
      (inject_anomaly data a sp dp m).getD i tp0 = data.getD i tp0) ∧
    (∀ (a₂ : String) (sp₂ dp₂ : ℚ) (m₂ : ℝ), 0 ≤ sp₂ → ∀ i, i < data.length →
      ((inject_anomaly (inject_anomaly data a sp dp m) a₂ sp₂ dp₂ m₂).getD i tp0).value =
        (data.getD i tp0).value *
          pointFactor a (pyInt ((data.length : ℚ) * sp)) (pyInt ((data.length : ℚ) * dp))
            m data.length i *
          pointFactor a₂ (pyInt ((data.length : ℚ) * sp₂)) (pyInt ((data.length : ℚ) * dp₂))
            m₂ data.length i) := by
  refine ⟨inject_anomaly_length data a sp dp m, ?_, ?_, ?_⟩
  · intro i hi
    rw [inject_anomaly_getD data a sp dp m i hi]
  · intro i hi hout
    rw [inject_anomaly_getD data a sp dp m i hi,
      pointFactor_eq_one a _ _ m data.length i hout]
    simp
  · intro a₂ sp₂ dp₂ m₂ _ i hi
    have ht : (inject_anomaly data a sp dp m).length = data.length :=
      inject_anomaly_length data a sp dp m
    rw [inject_anomaly_getD (inject_anomaly data a sp dp m) a₂ sp₂ dp₂ m₂ i
      (by rw [ht]; exact hi)]
    rw [ht, inject_anomaly_getD data a sp dp m i hi]

/-- Witness for C5: length preservation at a concrete one-point series and
drop spec. -/
theorem inject_anomaly_frame_and_composition_witness :
    (inject_anomaly [tp0] "drop" 0 1 2).length = ([tp0] : List TimePoint).length :=
  (inject_anomaly_frame_and_composition [tp0] "drop" 0 1 2 (by decide)).1

theorem pointFactor_spike (s d : ℤ) (m : ℝ) (total i : ℕ)
    (h : s ≤ (i : ℤ) ∧ (i : ℤ) < min (s + d) (total : ℤ)) :
    pointFactor "spike" s d m total i = spikeFactor m d ((i : ℤ) - s) := by
  simp only [pointFactor]
  rw [if_pos h]
  simp

theorem pointFactor_gradual (s d : ℤ) (m : ℝ) (total i : ℕ)
    (h : s ≤ (i : ℤ) ∧ (i : ℤ) < min (s + d) (total : ℤ)) :
    pointFactor "gradual" s d m total i = gradualFactor m d ((i : ℤ) - s) := by
  simp only [pointFactor]
  rw [if_pos h]
  simp

theorem pointFactor_drop (s d : ℤ) (m : ℝ) (total i : ℕ)
    (h : s ≤ (i : ℤ) ∧ (i : ℤ) < min (s + d) (total : ℤ)) :
    pointFactor "drop" s d m total i = 0.3 := by
  simp only [pointFactor]
  rw [if_pos h]
  simp

/-- C3: inside a non-empty spike window, the value at offset
`k = i - start_idx` is multiplied by `magnitude * exp(-k / (window_length / 3))`;
with `magnitude = 2` and `window_length = 30` the factor at `k = 0` equals
exactly `2` and it strictly decreases as `k` increases. -/
theorem spike_factor_shape (data : List TimePoint) (sp dp : ℚ) (magnitude : ℝ)
    (hsp : 0 ≤ sp) (hdur : 1 ≤ pyInt ((data.length : ℚ) * dp)) :
    (∀ i, i < data.length →
      pyInt ((data.length : ℚ) * sp) ≤ (i : ℤ) →
      (i : ℤ) < min (pyInt ((data.length : ℚ) * sp) + pyInt ((data.length : ℚ) * dp))
        (data.length : ℤ) →
      ((inject_anomaly data "spike" sp dp magnitude).getD i tp0).value =
        (data.getD i tp0).value *
          (magnitude *
            Real.exp (-(((i : ℤ) - pyInt ((data.length : ℚ) * sp) : ℤ) : ℝ) /
              ((pyInt ((data.length : ℚ) * dp) : ℝ) / 3)))) ∧
    spikeFactor 2 30 0 = 2 ∧
    (∀ k₁ k₂ : ℤ, k₁ < k₂ → spikeFactor 2 30 k₂ < spikeFactor 2 30 k₁) := by
  refine ⟨?_, ?_, ?_⟩
  · intro i hi h1 h2
    rw [inject_anomaly_getD data "spike" sp dp magnitude i hi,
      pointFactor_spike _ _ _ _ _ ⟨h1, h2⟩, spikeFactor]
  · simp [spikeFactor]
  · intro k1 k2 hk
    simp only [spikeFactor]
    have h2 : (0:ℝ) < 2 := by norm_num
    apply mul_lt_mul_of_pos_left _ h2
    apply Real.exp_lt_exp.2
    have h30 : (0:ℝ) < ((30 : ℤ) : ℝ) / 3 := by norm_num
    rw [div_lt_div_iff_of_pos_right h30]
    have : (k1 : ℝ) < (k2 : ℝ) := Int.cast_lt.2 hk
    linarith

/-- Witness for C3: a concrete 4-point series with `duration_percent = 1`
has window length `4 ≥ 1`, and the spike factor at offset 0 is exactly the
magnitude. -/
theorem spike_factor_shape_witness : spikeFactor 2 30 0 = 2 :=
  (spike_factor_shape [tp0, tp0, tp0, tp0] 0 1 2 (by norm_num)
    (by norm_num [pyInt])).2.1

/-- C4 counterexample: with `window_length = 1` (series `[(0, 10)]`,
`duration_fraction = 1`, `magnitude = 1.8`) the factor at the last window
point `k = window_length - 1 = 0` is `1`, so the value stays `10` instead of
`1.8 * 10`; and with `magnitude = 1/2` the factor strictly decreases across
the window (equal inputs `10, 10` become `10, 5`), so it is not monotonically
non-decreasing for every spec. -/
theorem gradual_plateau_counterexample :
    (((inject_anomaly [⟨0, 10⟩] "gradual" 0 1 1.8).getD 0 tp0).value = 10 ∧
      (10 : ℝ) ≠ 1.8 * 10) ∧
    (((inject_anomaly [⟨0, 10⟩, ⟨1, 10⟩] "gradual" 0 1 (1/2)).getD 0 tp0).value = 10 ∧
      ((inject_anomaly [⟨0, 10⟩, ⟨1, 10⟩] "gradual" 0 1 (1/2)).getD 1 tp0).value = 5 ∧
      ¬(10 : ℝ) ≤ 5) := by
  refine ⟨⟨?_, by norm_num⟩, ?_, ?_, by norm_num⟩
  · rw [inject_anomaly_getD [⟨0, 10⟩] "gradual" 0 1 1.8 0 (by simp),
      pointFactor_gradual _ _ _ _ _ (by constructor <;> norm_num [pyInt]),
      gradualFactor]
    norm_num [pyInt, List.getD, min_def]
  · rw [inject_anomaly_getD [⟨0, 10⟩, ⟨1, 10⟩] "gradual" 0 1 (1/2) 0 (by simp),
      pointFactor_gradual _ _ _ _ _ (by constructor <;> norm_num [pyInt]),
      gradualFactor]
    norm_num [pyInt, List.getD, min_def]
  · rw [inject_anomaly_getD [⟨0, 10⟩, ⟨1, 10⟩] "gradual" 0 1 (1/2) 1 (by simp),
      pointFactor_gradual _ _ _ _ _ (by constructor <;> norm_num [pyInt]),
      gradualFactor]
    norm_num [pyInt, List.getD, min_def]

/-- C4 (amended): inside a non-empty gradual window the value at offset
`k = i - start_idx` is multiplied by
`1 + (magnitude - 1) * min (k / window_length * 2, 1)`; this factor is
monotonically non-decreasing in `k` whenever `magnitude ≥ 1`; and with
`magnitude = 1.8` the factor at the last window point `k = window_length - 1`
equals exactly `1.8` provided `window_length ≥ 2` (for a one-point window it
equals `1`). -/
theorem gradual_factor_shape (data : List TimePoint) (sp dp : ℚ) (magnitude : ℝ)
    (hsp : 0 ≤ sp) (hdur : 1 ≤ pyInt ((data.length : ℚ) * dp)) :
    (∀ i, i < data.length →
      pyInt ((data.length : ℚ) * sp) ≤ (i : ℤ) →
      (i : ℤ) < min (pyInt ((data.length : ℚ) * sp) + pyInt ((data.length : ℚ) * dp))
        (data.length : ℤ) →
      ((inject_anomaly data "gradual" sp dp magnitude).getD i tp0).value =
        (data.getD i tp0).value *
          (1 + (magnitude - 1) *
            min ((((i : ℤ) - pyInt ((data.length : ℚ) * sp) : ℤ) : ℝ) /
              ((pyInt ((data.length : ℚ) * dp) : ℝ)) * 2) 1)) ∧
    (1 ≤ magnitude → ∀ k₁ k₂ : ℤ, k₁ ≤ k₂ →
      gradualFactor magnitude (pyInt ((data.length : ℚ) * dp)) k₁ ≤
        gradualFactor magnitude (pyInt ((data.length : ℚ) * dp)) k₂) ∧
    (2 ≤ pyInt ((data.length : ℚ) * dp) →
      gradualFactor 1.8 (pyInt ((data.length : ℚ) * dp))
        (pyInt ((data.length : ℚ) * dp) - 1) = 1.8) := by
  have hw : (0 : ℝ) < (pyInt ((data.length : ℚ) * dp) : ℝ) := by
    exact_mod_cast lt_of_lt_of_le Int.zero_lt_one hdur
  refine ⟨?_, ?_, ?_⟩
  · intro i hi h1 h2
    rw [inject_anomaly_getD data "gradual" sp dp magnitude i hi,
      pointFactor_gradual _ _ _ _ _ ⟨h1, h2⟩, gradualFactor]
    norm_num
  · intro hm k1 k2 hk
    simp only [gradualFactor]
    have hdiv : (k1 : ℝ) / (pyInt ((data.length : ℚ) * dp) : ℝ) * 2 ≤
        (k2 : ℝ) / (pyInt ((data.length : ℚ) * dp) : ℝ) * 2 := by
      have := (div_le_div_iff_of_pos_right hw).2 (Int.cast_le.2 hk)
      linarith
    have := mul_le_mul_of_nonneg_left (min_le_min_right (1 : ℝ) hdiv)
      (by linarith : (0 : ℝ) ≤ magnitude - 1.0)
    linarith
  · intro h2
    simp only [gradualFactor]
    rw [min_eq_right (by
      rw [div_mul_eq_mul_div, le_div_iff₀ hw]
      push_cast
      have h2r : (2 : ℝ) ≤ (pyInt ((data.length : ℚ) * dp) : ℝ) := by exact_mod_cast h2
      linarith)]
    norm_num

/-- Witness for C4 (amended): a concrete 4-point series with
`duration_percent = 1` has window length `4 ≥ 2` and the gradual factor at
the last window point equals `1.8`. -/
theorem gradual_factor_shape_witness :
    gradualFactor 1.8 (pyInt ((([tp0, tp0, tp0, tp0] : List TimePoint).length : ℚ) * 1))
      (pyInt ((([tp0, tp0, tp0, tp0] : List TimePoint).length : ℚ) * 1) - 1) = 1.8 :=
  (gradual_factor_shape [tp0, tp0, tp0, tp0] 0 1 1.8 (by norm_num)
    (by norm_num [pyInt])).2.2 (by norm_num [pyInt])

theorem generate_length (H M b ν now : ℚ) (g : ℕ → ℝ) :
    (generate_baseline_timeseries H M b ν now g).length = (pyInt (H * 60 / M)).toNat := by
  simp [generate_baseline_timeseries]

theorem generate_getD_timestamp (H M b ν now : ℚ) (g : ℕ → ℝ) (i : ℕ)
    (hi : i < (pyInt (H * 60 / M)).toNat) :
    ((generate_baseline_timeseries H M b ν now g).getD i tp0).timestamp =
      now - (((pyInt (H * 60 / M)).toNat - i : ℕ) : ℚ) * M := by
  rw [List.getD_eq_getElem _ _ (by rw [generate_length]; exact hi)]
  simp [generate_baseline_timeseries]

/-- C1 counterexample: with `duration_hours = 1`, `interval_minutes = 30` and
`now = 0` the series has 2 points and the LAST timestamp is `now - 30`,
not `now` (the loop subtracts `(points - i) * interval_minutes`, which is
still one full interval at `i = points - 1`). -/
theorem last_timestamp_counterexample :
    (generate_baseline_timeseries 1 30 50 0 0 (fun _ => 0)).length = 2 ∧
    ((generate_baseline_timeseries 1 30 50 0 0 (fun _ => 0)).getD 1 tp0).timestamp = -30 ∧
    (-30 : ℚ) ≠ 0 := by
  have h2 : pyInt (1 * 60 / 30 : ℚ) = 2 := by norm_num [pyInt]
  have h3 : (2 : ℤ).toNat = 2 := rfl
  refine ⟨?_, ?_, by norm_num⟩
  · rw [generate_length, h2, h3]
  · rw [generate_getD_timestamp 1 30 50 0 0 (fun _ => 0) 1 (by rw [h2]; decide), h2, h3]
    norm_num

/-- C1 (amended): for `duration_hours = H > 0` and `interval_minutes = M > 0`,
`generate_baseline_timeseries` produces exactly `floor(H*60/M)` points with
strictly ascending timestamps, point `i` having timestamp
`now - (point_count - i) * M`; the LAST timestamp equals `now - M`
(one interval before `now`), not `now`. -/
theorem generate_series_shape (H M b ν now : ℚ) (g : ℕ → ℝ)
    (hH : 0 < H) (hM : 0 < M) :
    (generate_baseline_timeseries H M b ν now g).length = (⌊H * 60 / M⌋).toNat ∧
    (∀ i j, i < (generate_baseline_timeseries H M b ν now g).length →
      j < (generate_baseline_timeseries H M b ν now g).length → i < j →
      ((generate_baseline_timeseries H M b ν now g).getD i tp0).timestamp <
        ((generate_baseline_timeseries H M b ν now g).getD j tp0).timestamp) ∧
    (∀ i, i < (generate_baseline_timeseries H M b ν now g).length →
      ((generate_baseline_timeseries H M b ν now g).getD i tp0).timestamp =
        now - (((generate_baseline_timeseries H M b ν now g).length - i : ℕ) : ℚ) * M) ∧
    (0 < (generate_baseline_timeseries H M b ν now g).length →
      ((generate_baseline_timeseries H M b ν now g).getD
        ((generate_baseline_timeseries H M b ν now g).length - 1) tp0).timestamp =
        now - M) := by
  have hpos : (0 : ℚ) ≤ H * 60 / M := by positivity
  have hfloor : pyInt (H * 60 / M) = ⌊H * 60 / M⌋ := by rw [pyInt, if_pos hpos]
  have hlen : (generate_baseline_timeseries H M b ν now g).length =
      (pyInt (H * 60 / M)).toNat := generate_length H M b ν now g
  have hts : ∀ i, i < (generate_baseline_timeseries H M b ν now g).length →
      ((generate_baseline_timeseries H M b ν now g).getD i tp0).timestamp =
        now - (((generate_baseline_timeseries H M b ν now g).length - i : ℕ) : ℚ) * M := by
    intro i hi
    rw [hlen] at hi ⊢
    exact generate_getD_timestamp H M b ν now g i hi
  refine ⟨by rw [hlen, hfloor], ?_, hts, ?_⟩
  · intro i j hi hj hij
    rw [hts i hi, hts j hj]
    apply sub_lt_sub_left
    apply mul_lt_mul_of_pos_right _ hM
    have : (generate_baseline_timeseries H M b ν now g).length - j <
        (generate_baseline_timeseries H M b ν now g).length - i := by omega
    exact_mod_cast this
  · intro hpos2
    rw [hts _ (by omega)]
    have h1 : (generate_baseline_timeseries H M b ν now g).length -
        ((generate_baseline_timeseries H M b ν now g).length - 1) = 1 := by omega
    rw [h1]
    norm_num

/-- Witness for C1 (amended): at `H = 24`, `M = 5` the series length is
`floor(24*60/5) = 288`. -/
theorem generate_series_shape_witness :
    (generate_baseline_timeseries 24 5 50 0 0 (fun _ => 0)).length =
      (⌊(24 * 60 / 5 : ℚ)⌋).toNat :=
  (generate_series_shape 24 5 50 0 0 (fun _ => 0) (by norm_num) (by norm_num)).1

/-- C2: the series generated with `duration_hours = 24`, `interval_minutes = 5`,
`baseline = 60`, `noise = 0` has 288 points; injecting a `"drop"` anomaly at
`start_percent = 0.6`, `duration_percent = 0.1` multiplies exactly the
`int(288*0.1) = 28` consecutive points at indices `172..199` by the constant
`0.3` — independent of `magnitude` — and leaves every other point identical. -/
theorem drop_injection_288 (magnitude : ℝ) (now : ℚ) (g : ℕ → ℝ) :
    (generate_baseline_timeseries 24 5 60 0 now g).length = 288 ∧
    pyInt ((288 : ℚ) * (3 / 5)) = 172 ∧
    pyInt ((288 : ℚ) * (1 / 10)) = 28 ∧
    (inject_anomaly (generate_baseline_timeseries 24 5 60 0 now g) "drop"
      (3 / 5) (1 / 10) magnitude).length = 288 ∧
    (∀ i, 172 ≤ i → i < 200 →
      ((inject_anomaly (generate_baseline_timeseries 24 5 60 0 now g) "drop"
        (3 / 5) (1 / 10) magnitude).getD i tp0).value =
        ((generate_baseline_timeseries 24 5 60 0 now g).getD i tp0).value * 0.3) ∧
    (∀ i, i < 288 → i < 172 ∨ 200 ≤ i →
      (inject_anomaly (generate_baseline_timeseries 24 5 60 0 now g) "drop"
        (3 / 5) (1 / 10) magnitude).getD i tp0 =
        (generate_baseline_timeseries 24 5 60 0 now g).getD i tp0) := by
  set s := generate_baseline_timeseries 24 5 60 0 now g with hs_def
  have h288 : pyInt (24 * 60 / 5 : ℚ) = 288 := by norm_num [pyInt]
  have hlen : s.length = 288 := by
    rw [hs_def, generate_length, h288]; rfl
  have hstart : pyInt ((s.length : ℚ) * (3 / 5)) = 172 := by
    rw [hlen]; norm_num [pyInt]
  have hdur : pyInt ((s.length : ℚ) * (1 / 10)) = 28 := by
    rw [hlen]; norm_num [pyInt]
  refine ⟨hlen, by norm_num [pyInt], by norm_num [pyInt],
    by rw [inject_anomaly_length, hlen], ?_, ?_⟩
  · intro i h1 h2
    have hi : i < s.length := by omega
    rw [inject_anomaly_getD s "drop" (3 / 5) (1 / 10) magnitude i hi,
      pointFactor_drop _ _ _ _ _ ?_]
    rw [hstart, hdur, hlen]
    constructor
    · omega
    · omega
  · intro i h1 h2
    have hi : i < s.length := by omega
    rw [inject_anomaly_getD s "drop" (3 / 5) (1 / 10) magnitude i hi,
      pointFactor_eq_one _ _ _ _ _ _ ?_]
    · simp
    · rw [hstart, hdur]
      omega

theorem calculate_statistics_spec (data : List TimePoint) (hne : data ≠ []) :
    calculate_statistics data = some
      { min := round2 (listMin (data.map (fun p => p.value)))
        max := round2 (listMax (data.map (fun p => p.value)))
        mean := round2 (listMean (data.map (fun p => p.value)))
        median := round2 (percentile (data.map (fun p => p.value)) 50)
        p95 := round2 (percentile (data.map (fun p => p.value)) 95)
        p99 := round2 (percentile (data.map (fun p => p.value)) 99)
        std_dev := round2 (npStd (data.map (fun p => p.value)))
        delta_vs_previous_period := round2 (
          if listMean ((data.map (fun p => p.value)).take
              ((data.map (fun p => p.value)).length / 2)) > 0 then
            (listMean ((data.map (fun p => p.value)).drop
                ((data.map (fun p => p.value)).length / 2)) -
              listMean ((data.map (fun p => p.value)).take
                ((data.map (fun p => p.value)).length / 2))) /
              listMean ((data.map (fun p => p.value)).take
                ((data.map (fun p => p.value)).length / 2)) * 100
          else 0) } := by
  simp only [calculate_statistics]
  rw [if_neg (by simp [hne])]

/-- C9: summarization of an empty series fails (models the `ValueError`
raised by `np.min` on a zero-length array) instead of returning a statistics
record, and every series of length at least 1 yields a complete record. -/
theorem calculate_statistics_empty_vs_nonempty :
    calculate_statistics [] = none ∧
    ∀ data : List TimePoint, data ≠ [] → (calculate_statistics data).isSome = true := by
  constructor
  · rfl
  · intro data hne
    rw [calculate_statistics_spec data hne]
    rfl

/-- Witness for C9: a concrete one-point series yields a statistics record. -/
theorem calculate_statistics_empty_vs_nonempty_witness :
    (calculate_statistics [tp0]).isSome = true :=
  calculate_statistics_empty_vs_nonempty.2 [tp0] (by simp)

theorem list_sum_getD (l : List ℝ) :
    l.sum = ∑ i ∈ Finset.range l.length, l.getD i 0 := by
  induction l with
  | nil => simp
  | cons a t ih =>
    rw [List.sum_cons, List.length_cons, Finset.sum_range_succ']
    simp only [List.getD_cons_succ, List.getD_cons_zero]
    rw [← ih]
    ring

theorem values_getD (data : List TimePoint) (j : ℕ) (h : j < data.length) :
    (data.map (fun p => p.value)).getD j 0 = (data.getD j tp0).value := by
  rw [List.getD_eq_getElem _ _ (by simpa using h), List.getD_eq_getElem _ _ h,
    List.getElem_map]

theorem sum_drop_double (l : List ℝ) (m : ℕ) (hlen : l.length = 2 * m)
    (hd : ∀ i, i < m → l.getD (m + i) 0 = 2 * l.getD i 0) :
    (l.drop m).sum = 2 * (l.take m).sum := by
  rw [list_sum_getD (l.drop m), list_sum_getD (l.take m), List.length_drop,
    List.length_take, hlen]
  have h1 : 2 * m - m = m := by omega
  have h2 : min m (2 * m) = m := by omega
  rw [h1, h2, Finset.mul_sum]
  apply Finset.sum_congr rfl
  intro i hi
  rw [Finset.mem_range] at hi
  have hb1 : i < (l.drop m).length := by rw [List.length_drop, hlen]; omega
  have hb2 : m + i < l.length := by omega
  have hb3 : i < (l.take m).length := by rw [List.length_take, hlen]; omega
  have hb4 : i < l.length := by omega
  rw [List.getD_eq_getElem _ _ hb1, List.getD_eq_getElem _ _ hb3,
    List.getElem_drop, List.getElem_take]
  rw [← List.getD_eq_getElem l 0 hb2, ← List.getD_eq_getElem l 0 hb4]
  exact hd i hi

/-- C6: `calculate_statistics` reports `delta_vs_previous_period` by
splitting at the midpoint `floor(n/2)`, comparing the mean of the second
half against the mean of the first half (percentage change when the first
mean is positive, `0` otherwise); a series whose second half is pointwise
double its first half yields exactly `100`. -/
theorem delta_vs_previous_period_spec (data : List TimePoint) (hne : data ≠ []) :
    ((calculate_statistics data).map Stats.delta_vs_previous_period =
      some (round2 (
        if listMean ((data.map (fun p => p.value)).take (data.length / 2)) > 0 then
          (listMean ((data.map (fun p => p.value)).drop (data.length / 2)) -
            listMean ((data.map (fun p => p.value)).take (data.length / 2))) /
            listMean ((data.map (fun p => p.value)).take (data.length / 2)) * 100
        else 0))) ∧
    (∀ m : ℕ, 1 ≤ m → data.length = 2 * m →
      (∀ i, i < m → (data.getD (m + i) tp0).value = 2 * (data.getD i tp0).value) →
      0 < listMean ((data.map (fun p => p.value)).take m) →
      (calculate_statistics data).map Stats.delta_vs_previous_period = some 100) := by
  constructor
  · rw [calculate_statistics_spec data hne]
    simp [List.length_map]
  · intro m hm hlen hd hpos
    rw [calculate_statistics_spec data hne]
    simp only [Option.map_some']
    have hvl : (data.map (fun p => p.value)).length = data.length := List.length_map _ _
    have hmid : (data.map (fun p => p.value)).length / 2 = m := by
      rw [hvl, hlen]; omega
    rw [hmid]
    have hdv : ∀ i, i < m → (data.map (fun p => p.value)).getD (m + i) 0 =
        2 * (data.map (fun p => p.value)).getD i 0 := by
      intro i hi
      rw [values_getD data (m + i) (by omega), values_getD data i (by omega)]
      exact hd i hi
    have hsum : ((data.map (fun p => p.value)).drop m).sum =
        2 * ((data.map (fun p => p.value)).take m).sum :=
      sum_drop_double _ m (by rw [hvl, hlen]) hdv
    have htl : ((data.map (fun p => p.value)).take m).length = m := by
      rw [List.length_take, hvl, hlen]; omega
    have hdl : ((data.map (fun p => p.value)).drop m).length = m := by
      rw [List.length_drop, hvl, hlen]; omega
    have hcur : listMean ((data.map (fun p => p.value)).drop m) =
        2 * listMean ((data.map (fun p => p.value)).take m) := by
      rw [listMean, listMean, hsum, htl, hdl]
      ring
    rw [if_pos hpos, hcur]
    have hp : listMean ((data.map (fun p => p.value)).take m) ≠ 0 := ne_of_gt hpos
    have harith : (2 * listMean ((data.map (fun p => p.value)).take m) -
        listMean ((data.map (fun p => p.value)).take m)) /
        listMean ((data.map (fun p => p.value)).take m) * 100 = 100 := by
      field_simp
      ring
    rw [harith, round2]
    norm_num

/-- Witness for C6: the two-point series `[(0,1), (0,2)]` has its second
half double its first half and reports a delta of exactly `100`. -/
theorem delta_vs_previous_period_spec_witness :
    (calculate_statistics [⟨0, 1⟩, ⟨0, 2⟩]).map Stats.delta_vs_previous_period =
      some 100 :=
  (delta_vs_previous_period_spec [⟨0, 1⟩, ⟨0, 2⟩] (by simp)).2 1 (by norm_num)
    (by simp)
    (by
      intro i hi
      have h0 : i = 0 := by omega
      subst h0
      norm_num [List.getD])
    (by norm_num [listMean, List.take])

theorem series100_values :
    series100.map (fun p => p.value) = (List.range 100).map (fun i : ℕ => (i : ℝ) + 1) := by
  rw [series100, List.map_map]
  rfl

theorem series100_sorted :
    List.Sorted (· ≤ ·) ((List.range 100).map (fun i : ℕ => (i : ℝ) + 1)) :=
  (List.pairwise_lt_range 100).map _ (fun a b hab => by
    have h1 : (a : ℝ) < b := by exact_mod_cast hab
    linarith)

theorem series100_sortVals :
    sortVals ((List.range 100).map (fun i : ℕ => (i : ℝ) + 1)) =
      (List.range 100).map (fun i : ℕ => (i : ℝ) + 1) := by
  rw [sortVals]
  exact series100_sorted.insertionSort_eq

theorem range_map_getD (k : ℕ) (hk : k < 100) :
    ((List.range 100).map (fun i : ℕ => (i : ℝ) + 1)).getD k 0 = (k : ℝ) + 1 := by
  rw [List.getD_eq_getElem _ _ (by simpa using hk)]
  simp

theorem list_range_map_sum (n : ℕ) (f : ℕ → ℝ) :
    ((List.range n).map f).sum = ∑ i ∈ Finset.range n, f i := by
  induction n with
  | zero => simp
  | succ k ih =>
    rw [List.range_succ, List.map_append, List.sum_append, Finset.sum_range_succ, ih]
    simp

set_option maxRecDepth 10000 in
theorem sum_1_to_100 :
    ((List.range 100).map (fun i : ℕ => (i : ℝ) + 1)).sum = 5050 := by
  rw [list_range_map_sum]
  have hz : ∑ i ∈ Finset.range 100, ((i : ℤ) + 1) = 5050 := by decide
  have hc : ∑ i ∈ Finset.range 100, ((i : ℝ) + 1) =
      (((∑ i ∈ Finset.range 100, ((i : ℤ) + 1)) : ℤ) : ℝ) := by
    push_cast
    rfl
  rw [hc, hz]
  norm_num

theorem mean_1_to_100 :
    listMean ((List.range 100).map (fun i : ℕ => (i : ℝ) + 1)) = 50.5 := by
  rw [listMean, sum_1_to_100]
  simp
  norm_num

set_option maxRecDepth 10000 in
theorem sumsq_1_to_100 :
    ((List.range 100).map (fun i : ℕ => ((i : ℝ) + 1 - 50.5) ^ 2)).sum = 83325 := by
  rw [list_range_map_sum]
  have hfun : ∀ i ∈ Finset.range 100,
      ((i : ℝ) + 1 - 50.5) ^ 2 = (((2 * (i : ℤ) - 99) ^ 2 : ℤ) : ℝ) / 4 := by
    intro i _
    push_cast
    ring
  rw [Finset.sum_congr rfl hfun, ← Finset.sum_div]
  have hz : ∑ i ∈ Finset.range 100, (2 * (i : ℤ) - 99) ^ 2 = 333300 := by decide
  have hcast : ∑ i ∈ Finset.range 100, (((2 * (i : ℤ) - 99) ^ 2 : ℤ) : ℝ) = 333300 := by
    exact_mod_cast hz
  rw [hcast]
  norm_num

theorem percentile95_1_to_100 :
    percentile ((List.range 100).map (fun i : ℕ => (i : ℝ) + 1)) 95 = 95.05 := by
  simp only [percentile, series100_sortVals, List.length_map, List.length_range]
  have hfl : ⌊(((100 : ℕ) : ℚ) - 1) * 95 / 100⌋ = 94 := by norm_num
  rw [hfl]
  have ht : (94 : ℤ).toNat = 94 := rfl
  rw [ht, range_map_getD 94 (by norm_num), range_map_getD (94 + 1) (by norm_num)]
  push_cast
  norm_num

theorem percentile50_1_to_100 :
    percentile ((List.range 100).map (fun i : ℕ => (i : ℝ) + 1)) 50 = 50.5 := by
  simp only [percentile, series100_sortVals, List.length_map, List.length_range]
  have hfl : ⌊(((100 : ℕ) : ℚ) - 1) * 50 / 100⌋ = 49 := by norm_num
  rw [hfl]
  have ht : (49 : ℤ).toNat = 49 := rfl
  rw [ht, range_map_getD 49 (by norm_num), range_map_getD (49 + 1) (by norm_num)]
  push_cast
  norm_num

theorem npStd_1_to_100 :
    npStd ((List.range 100).map (fun i : ℕ => (i : ℝ) + 1)) = Real.sqrt 833.25 := by
  rw [npStd, mean_1_to_100, List.map_map]
  have hcomp : ((fun x => (x - 50.5) ^ 2) ∘ fun i : ℕ => (i : ℝ) + 1) =
      fun i : ℕ => ((i : ℝ) + 1 - 50.5) ^ 2 := rfl
  rw [hcomp, listMean, sumsq_1_to_100]
  have hlen2 : (List.map (fun i : ℕ => ((i : ℝ) + 1 - 50.5) ^ 2) (List.range 100)).length =
      100 := by simp
  rw [hlen2]
  congr 1
  norm_num

theorem round2_sqrt_83325 : round2 (Real.sqrt 833.25) = 28.87 := by
  have h1 : (28.865 : ℝ) ≤ Real.sqrt 833.25 :=
    Real.le_sqrt_of_sq_le (by norm_num)
  have h2 : Real.sqrt 833.25 < 28.875 := by
    rw [Real.sqrt_lt' (by norm_num)]
    norm_num
  rw [round2]
  have hfl : ⌊Real.sqrt 833.25 * 100 + 1 / 2⌋ = 2887 := by
    rw [Int.floor_eq_iff]
    constructor
    · push_cast
      linarith
    · push_cast
      linarith
  rw [hfl]
  norm_num

/-- C7: `calculate_statistics` on the series with values `1, 2, ..., 100`
returns `p95 = 95.05` (linear interpolation at fractional rank
`(n-1)*q/100` over the ascending-sorted values), `median = 50.5`, and
`std_dev = 28.87` (population formula, divide by `n`). -/
theorem stats_on_series100 :
    (calculate_statistics series100).map Stats.p95 = some 95.05 ∧
    (calculate_statistics series100).map Stats.median = some 50.5 ∧
    (calculate_statistics series100).map Stats.std_dev = some 28.87 := by
  have hne : series100 ≠ [] := by
    have hl : series100.length = 100 := by simp [series100]
    intro h
    rw [h] at hl
    simp at hl
  rw [calculate_statistics_spec series100 hne, series100_values]
  simp only [Option.map_some']
  refine ⟨?_, ?_, ?_⟩
  · rw [percentile95_1_to_100, round2]
    norm_num
  · rw [percentile50_1_to_100, round2]
    norm_num
  · rw [npStd_1_to_100, round2_sqrt_83325]

/-- Witness for C2: at `now = 0`, zero noise stream and `magnitude = 2`, the
generated series has exactly 288 points. -/
theorem drop_injection_288_witness :
    (generate_baseline_timeseries 24 5 60 0 0 (fun _ => 0)).length = 288 :=
  (drop_injection_288 2 0 (fun _ => 0)).1
